import Mathlib

/-!
Verification of the AgentBridge Task Supervision & Remote-Call Protocol Core.

This file gives a shallow embedding, in Lean 4, of the parts of the
repository that the specification's testable properties talk about:

* `src/agentbridge/tasks/watch_tasks.py` — the durable priority task queue
  and bounded-retry execution loop (the "watcher");
* `src/agentbridge/agents/supervisors/delegator/remote_agent_connection.py`
  — the Remote Task Client (`RemoteAgentConnections.send_message`);
* `src/agentbridge/agents/supervisors/delegator/agent.py` — the Session
  Coordinator (`HostAgent.send_message`) and content-part normalization
  (`convert_part` / `convert_parts`);
* `src/agentbridge/start.py` — the Process Supervisor's staged shutdown
  (`graceful_terminate`) and its CLI grace-period flags.

Python dictionaries become structures with `Option` fields for keys that may
be absent; Python truthiness of strings ("" is falsy) is modelled explicitly
where the source relies on it; exceptions become `Except`; in-place mutation
becomes explicit state threading, which makes write-ordering (what was in a
record at the moment it was serialized to a file) directly visible in the
model.
-/

namespace AgentBridge

/-! ## Python string primitives

Structural models of the Python string methods the watcher uses. They are
defined directly on the character list of a `String` so that concrete
evaluations reduce in the kernel. -/

/-- Python `str.lower()`: lowercase every character. -/
def pyLower (s : String) : String := ⟨s.data.map Char.toLower⟩

/-- Python `str.strip()`: drop leading and trailing whitespace. -/
def pyStrip (s : String) : String :=
  ⟨((s.data.dropWhile Char.isWhitespace).reverse.dropWhile Char.isWhitespace).reverse⟩

/-- Python `s.startswith(p)`: `p` is an initial segment of `s`. -/
def pyStartsWith (s p : String) : Bool := p.data.isPrefixOf s.data

/-! ## watch_tasks.py: data model and `get_priority` -/

/-- PRIORITY_ORDER from watch_tasks.py line 46:
`{"urgent": 0, "high": 1, "medium": 2, "low": 3}` (a dict, modelled as an
association list with `List.lookup`). -/
def PRIORITY_ORDER : List (String × Nat) :=
  [("urgent", 0), ("high", 1), ("medium", 2), ("low", 3)]

/-- The `payload` dictionary of a queue task. Keys that may be absent are
`Option`s. Only the fields the watcher reads or writes are modelled. -/
structure Payload where
  urgency : Option String := none
  task : String := ""
  refined : Bool := false
  original_task : Option String := none
  refined_task : Option String := none
  deriving Repr, DecidableEq, Inhabited

/-- One entry of a task's `attempts_info` list (watch_tasks.py lines
240-244, 258, 263): the attempt index, the refined instruction used, the
evaluator verdict, and the (optionally refined) replanned instruction. -/
structure AttemptInfo where
  tryIndex : Nat
  refined_task : Option String := none
  evaluation_result : String := ""
  replanned_task : Option String := none
  refined_replan_task : Option String := none
  deriving Repr, DecidableEq, Inhabited

/-- A task record as stored in the pending store (`task_list.json`) and, with
`status` and bookkeeping set, in the completed store. Timing fields
(`started_at`, `duration_seconds`) are not modelled: no claim depends on
wall-clock values. -/
structure WTask where
  task_id : Option String := none
  payload : Option Payload := none
  attempts : Nat := 0
  status : Option String := none
  attempts_info : List AttemptInfo := []
  deriving Repr, DecidableEq, Inhabited

/-- get_priority (watch_tasks.py lines 94-96):
`urgency = (task.get("payload", {}) or {}).get("urgency", "medium")` then
`PRIORITY_ORDER.get(urgency.lower(), PRIORITY_ORDER["medium"])`. A falsy or
missing payload defaults to the empty dict, a missing urgency key defaults to
`"medium"`, and an unrecognized (lowercased) urgency falls back to the
priority of `"medium"`, which the dict maps to 2. -/
def get_priority (t : WTask) : Nat :=
  (PRIORITY_ORDER.lookup (pyLower (((t.payload.getD {}).urgency).getD "medium"))).getD
    ((PRIORITY_ORDER.lookup "medium").getD 2)

/-! ## watch_tasks.py: the priority queue (heapq on 4-tuples)

The watcher pushes `(prio, next(seq), tid, t)` tuples into a `heapq` heap
(line 173) and pops with `heapq.heappop` (line 183). `heapq` is Python's
standard binary min-heap; its observable contract, which is all the watcher
relies on, is: the heap holds the multiset of pushed entries, and `heappop`
removes and returns the least entry in tuple (lexicographic) order. We model
the heap as the list of entries in push order, `heappush` as appending, and
`heappop` as extraction of the least entry. Entries keep the components that
tuple comparison can inspect: `(priority_rank, sequence_number, task_id)`;
since the watcher's sequence numbers come from `itertools.count()` and are
pairwise distinct, comparison is always decided by the first two components
and never reaches `task_id` or the task dict. -/

/-- A queue entry `(priority_rank, sequence_number, task_id)`. -/
abbrev Entry := Nat × Nat × String

/-- Lexicographic "less or equal" on the first two tuple components, which is
how Python orders the watcher's heap entries (distinct sequence numbers mean
the comparison never goes further). -/
def EntryLe (a b : Entry) : Prop :=
  a.1 < b.1 ∨ (a.1 = b.1 ∧ a.2.1 ≤ b.2.1)

instance (a b : Entry) : Decidable (EntryLe a b) := by
  unfold EntryLe; infer_instance

/-- heappush: the heap holds the multiset of pushed entries; pushing adds the
entry. -/
def heappush (q : List Entry) (e : Entry) : List Entry := q ++ [e]

/-- Least entry among `e :: l` in `EntryLe` order. -/
def findMin (e : Entry) (l : List Entry) : Entry :=
  match l with
  | [] => e
  | x :: xs => if EntryLe e x then findMin e xs else findMin x xs

theorem findMin_mem (e : Entry) (l : List Entry) : findMin e l ∈ e :: l := by
  induction l generalizing e with
  | nil => simp [findMin]
  | cons x xs ih =>
    unfold findMin
    by_cases h : EntryLe e x
    · simp only [if_pos h]
      rcases List.mem_cons.mp (ih e) with h' | h'
      · rw [h']; exact List.mem_cons_self _ _
      · exact List.mem_cons_of_mem _ (List.mem_cons_of_mem _ h')
    · simp only [if_neg h]
      exact List.mem_cons_of_mem _ (ih x)

theorem entryLe_total (a b : Entry) : EntryLe a b ∨ EntryLe b a := by
  unfold EntryLe; omega

theorem entryLe_trans {a b c : Entry} (h₁ : EntryLe a b) (h₂ : EntryLe b c) :
    EntryLe a c := by
  unfold EntryLe at *; omega

theorem findMin_le (e : Entry) (l : List Entry) :
    ∀ x ∈ e :: l, EntryLe (findMin e l) x := by
  induction l generalizing e with
  | nil =>
    intro x hx
    have hx' : x = e := by simpa using hx
    subst hx'
    unfold findMin EntryLe
    omega
  | cons y ys ih =>
    intro x hx
    unfold findMin
    by_cases h : EntryLe e y
    · simp only [if_pos h]
      rcases List.mem_cons.mp hx with he | hx'
      · rw [he]; exact ih e e (List.mem_cons_self _ _)
      · rcases List.mem_cons.mp hx' with hxy | hx''
        · rw [hxy]; exact entryLe_trans (ih e e (List.mem_cons_self _ _)) h
        · exact ih e x (List.mem_cons_of_mem _ hx'')
    · have hy : EntryLe y e := (entryLe_total e y).resolve_left h
      simp only [if_neg h]
      rcases List.mem_cons.mp hx with he | hx'
      · rw [he]; exact entryLe_trans (ih y y (List.mem_cons_self _ _)) hy
      · rcases List.mem_cons.mp hx' with hxy | hx''
        · rw [hxy]; exact ih y y (List.mem_cons_self _ _)
        · exact ih y x (List.mem_cons_of_mem _ hx'')

/-- Remove the first occurrence of an entry from the heap list (what
`heappop` does with the element it returns). -/
def eraseEntry : List Entry → Entry → List Entry
  | [], _ => []
  | x :: xs, m => if x = m then xs else x :: eraseEntry xs m

theorem eraseEntry_length_of_mem {m : Entry} :
    ∀ {l : List Entry}, m ∈ l → (eraseEntry l m).length + 1 = l.length := by
  intro l hm
  induction l with
  | nil => cases hm
  | cons x xs ih =>
    unfold eraseEntry
    by_cases h : x = m
    · simp [h]
    · have hm' : m ∈ xs := by
        rcases List.mem_cons.mp hm with h' | h'
        · exact absurd h'.symm h
        · exact h'
      simp [h, ih hm']

theorem perm_cons_eraseEntry {m : Entry} :
    ∀ {l : List Entry}, m ∈ l → List.Perm l (m :: eraseEntry l m) := by
  intro l hm
  induction l with
  | nil => cases hm
  | cons x xs ih =>
    unfold eraseEntry
    by_cases h : x = m
    · rw [h, if_pos rfl]
    · have hm' : m ∈ xs := by
        rcases List.mem_cons.mp hm with h' | h'
        · exact absurd h'.symm h
        · exact h'
      rw [if_neg h]
      exact ((ih hm').cons x).trans (List.Perm.swap m x _)

theorem mem_of_mem_eraseEntry {a m : Entry} :
    ∀ {l : List Entry}, a ∈ eraseEntry l m → a ∈ l := by
  intro l ha
  induction l with
  | nil => simp [eraseEntry] at ha
  | cons x xs ih =>
    unfold eraseEntry at ha
    by_cases h : x = m
    · rw [if_pos h] at ha
      exact List.mem_cons_of_mem _ ha
    · rw [if_neg h] at ha
      rcases List.mem_cons.mp ha with h' | h'
      · rw [h']; exact List.mem_cons_self _ _
      · exact List.mem_cons_of_mem _ (ih h')

/-- heappop: remove and return the least entry of a non-empty heap. -/
def heappop (q : List Entry) : Option (Entry × List Entry) :=
  match q with
  | [] => none
  | x :: xs => some (findMin x xs, eraseEntry (x :: xs) (findMin x xs))

/-- Repeatedly `heappop` until the heap is empty, collecting the popped
entries in pop order. -/
def popAll (q : List Entry) : List Entry :=
  match q with
  | [] => []
  | x :: xs => findMin x xs :: popAll (eraseEntry (x :: xs) (findMin x xs))
termination_by q.length
decreasing_by
  have h := eraseEntry_length_of_mem (findMin_mem x xs)
  simp at h ⊢
  omega

theorem popAll_perm : ∀ q : List Entry, List.Perm (popAll q) q
  | [] => by simp [popAll]
  | x :: xs => by
    have hm : findMin x xs ∈ x :: xs := findMin_mem x xs
    have ih := popAll_perm (eraseEntry (x :: xs) (findMin x xs))
    rw [popAll]
    exact (ih.cons _).trans (perm_cons_eraseEntry hm).symm
termination_by q => q.length
decreasing_by
  have h := eraseEntry_length_of_mem (findMin_mem x xs)
  simp at h ⊢
  omega

theorem popAll_sorted : ∀ q : List Entry, (popAll q).Pairwise EntryLe
  | [] => by simp [popAll]
  | x :: xs => by
    have ih := popAll_sorted (eraseEntry (x :: xs) (findMin x xs))
    rw [popAll]
    refine List.pairwise_cons.mpr ⟨?_, ih⟩
    intro a ha
    have ha' : a ∈ eraseEntry (x :: xs) (findMin x xs) :=
      (popAll_perm _).mem_iff.mp ha
    exact findMin_le x xs a (mem_of_mem_eraseEntry ha')
termination_by q => q.length
decreasing_by
  have h := eraseEntry_length_of_mem (findMin_mem x xs)
  simp at h ⊢
  omega

/-- Enqueue a list of tasks in arrival order, exactly as the watcher's queue
loop does (lines 169-175): the sequence number is the arrival index (the
`itertools.count()` counter), the priority is `get_priority`, and the entry
is pushed with `heappush`. -/
def enqueueAll (ts : List WTask) : List Entry :=
  ts.enum.foldl
    (fun q it => heappush q (get_priority it.2, it.1, it.2.task_id.getD "")) []

theorem enqueueAll_eq_map (ts : List WTask) :
    enqueueAll ts =
      ts.enum.map (fun it => (get_priority it.2, it.1, it.2.task_id.getD "")) := by
  unfold enqueueAll
  generalize ts.enum = l
  suffices h : ∀ (l : List (Nat × WTask)) (q : List Entry),
      l.foldl (fun q it => heappush q (get_priority it.2, it.1, it.2.task_id.getD "")) q =
        q ++ l.map (fun it => (get_priority it.2, it.1, it.2.task_id.getD "")) by
    simpa using h l []
  intro l
  induction l with
  | nil => simp
  | cons x xs ih =>
    intro q
    rw [List.foldl_cons, ih]
    simp [heappush, List.append_assoc]

/-- C2. For any set of tasks enqueued (in arbitrary arrival order, urgencies
arbitrary), popping the queue empty yields exactly the pushed entries (a
permutation), and the pop order is strictly sorted by priority rank first
(`urgent` = 0 before `high` = 1 before `medium` = 2 before `low` = 3, lower
rank popped first) and, for equal rank, by sequence number — which is the
arrival index — so equal-urgency tasks leave in arrival order: the queue of
watch_tasks.py lines 169-183 is a stable priority queue. -/
theorem claim_C2 (ts : List WTask) :
    List.Perm (popAll (enqueueAll ts)) (enqueueAll ts) ∧
    (popAll (enqueueAll ts)).Pairwise
      (fun a b => a.1 < b.1 ∨ (a.1 = b.1 ∧ a.2.1 < b.2.1)) := by
  refine ⟨popAll_perm _, ?_⟩
  have hseq : (enqueueAll ts).map (fun e => e.2.1) = List.range ts.length := by
    rw [enqueueAll_eq_map, List.map_map]
    have hcomp : ((fun (e : Entry) => e.2.1) ∘
        (fun it : Nat × WTask => ((get_priority it.2, it.1, it.2.task_id.getD "") : Entry)))
        = fun it : Nat × WTask => it.1 := rfl
    rw [hcomp]
    simp
  have hnodup : ((popAll (enqueueAll ts)).map (fun e => e.2.1)).Nodup := by
    have hperm := (popAll_perm (enqueueAll ts)).map (fun e => e.2.1)
    rw [hperm.nodup_iff, hseq]
    exact List.nodup_range _
  have hne : (popAll (enqueueAll ts)).Pairwise (fun a b => a.2.1 ≠ b.2.1) :=
    List.pairwise_map.mp hnodup
  refine ((popAll_sorted _).and hne).imp ?_
  intro a b hab
  rcases hab with ⟨h1, h2⟩
  unfold EntryLe at h1
  omega

/-- C10. Priority assignment at enqueue time: a task whose payload is missing
(or whose payload lacks an `urgency` key) gets priority 2, the priority of
`"medium"`; a task whose urgency, lowercased, is none of
urgent/high/medium/low also gets priority 2; and the urgency match is
case-insensitive — the assigned priority depends only on the lowercased
urgency string (watch_tasks.py lines 46 and 94-96). -/
theorem claim_C10 :
    (∀ t : WTask, (t.payload.getD {}).urgency = none → get_priority t = 2) ∧
    (∀ (t : WTask) (u : String), (t.payload.getD {}).urgency = some u →
      pyLower u ∉ (["urgent", "high", "medium", "low"] : List String) →
      get_priority t = 2) ∧
    (∀ (p : Payload) (u₁ u₂ : String), pyLower u₁ = pyLower u₂ →
      get_priority { payload := some { p with urgency := some u₁ } } =
        get_priority { payload := some { p with urgency := some u₂ } }) := by
  refine ⟨?_, ?_, ?_⟩
  · intro t h
    unfold get_priority
    rw [h]
    decide
  · intro t u h hu
    obtain ⟨h1, h2, h3, h4⟩ : pyLower u ≠ "urgent" ∧ pyLower u ≠ "high" ∧
        pyLower u ≠ "medium" ∧ pyLower u ≠ "low" := by
      simpa using hu
    have hnone : PRIORITY_ORDER.lookup (pyLower u) = none := by
      have e1 : (pyLower u == "urgent") = false := beq_eq_false_iff_ne.mpr h1
      have e2 : (pyLower u == "high") = false := beq_eq_false_iff_ne.mpr h2
      have e3 : (pyLower u == "medium") = false := beq_eq_false_iff_ne.mpr h3
      have e4 : (pyLower u == "low") = false := beq_eq_false_iff_ne.mpr h4
      simp [PRIORITY_ORDER, List.lookup, e1, e2, e3, e4]
    unfold get_priority
    rw [h, Option.getD_some, hnone]
    decide
  · intro p u₁ u₂ h
    unfold get_priority
    simp only [Option.getD_some]
    rw [h]

/-- C10 witness: `get_priority` at concrete inputs — a task with no payload,
a task with an unrecognized urgency, and a pair of tasks whose urgencies
differ only in case. -/
theorem claim_C10_witness :
    get_priority { payload := none } = 2 ∧
    get_priority { payload := some { urgency := some "supercritical" } } = 2 ∧
    get_priority { payload := some { urgency := some "URGENT" } } =
      get_priority { payload := some { urgency := some "urgent" } } :=
  ⟨claim_C10.1 { payload := none } rfl,
   claim_C10.2.1 { payload := some { urgency := some "supercritical" } }
     "supercritical" rfl (by decide),
   claim_C10.2.2 {} "URGENT" "urgent" (by decide)⟩

/-! ## watch_tasks.py: the poll step, the seen-set, and finalization

The state of `main()` (lines 145-298): the pending store (`task_list.json`),
the completed store (`completed_tasks.json`), the in-memory `seen_ids` set,
the heap, and the `itertools.count()` sequence counter. `cands` models the
stream of candidate ids that `generate_task_id` draws (Python draws random
`Task-xxxx` suffixes until one is outside `existing_ids`; the model scans a
candidate list for the first fresh one). `pushLog` is a history variable: it
records the `task_id` of every `heappush` the watcher ever performs, in
order, and is written exactly where the push happens; it lets theorems talk
about "enqueued at most once per process lifetime". -/

structure WatcherState where
  store : List WTask
  completed : List WTask
  seen : List String
  queue : List Entry
  seqCounter : Nat
  cands : List String
  pushLog : List String
  deriving Repr, DecidableEq, Inhabited

/-- Python truthiness of an optional string: `None` and `""` are falsy. -/
def truthyId : Option String → Bool
  | none => false
  | some s => s ≠ ""

/-- generate_task_id (lines 136-142): draw candidates until one is not in
`existing`; `none` models an exhausted candidate stream, which the Python
loop cannot return (it would keep drawing). -/
def generate_task_id (cands existing : List String) : Option String :=
  cands.find? (fun c => !existing.contains c)

/-- The initial `all_existing_ids` set (line 159): the truthy `task_id`s
present in the store. -/
def existingIds (ts : List WTask) : List String :=
  ts.filterMap (fun t => if truthyId t.task_id then t.task_id else none)

/-- The id-assignment loop (lines 161-167): any task with a falsy `task_id`
gets a fresh id, which is also added to `existing`. -/
def assignIds : List WTask → List String → List String → List WTask × List String
  | [], _, existing => ([], existing)
  | t :: ts, cands, existing =>
    if truthyId t.task_id then
      let r := assignIds ts cands existing
      (t :: r.1, r.2)
    else
      match generate_task_id cands existing with
      | some tid =>
        let r := assignIds ts cands (existing ++ [tid])
        ({ t with task_id := some tid } :: r.1, r.2)
      | none =>
        let r := assignIds ts cands existing
        (t :: r.1, r.2)

/-- One iteration of the enqueue loop (lines 169-175): `tid = t.get("task_id")`;
`if tid and tid not in seen_ids:` push `(prio, next(seq), tid, t)` and mark
the id seen. -/
def enqueueOne (s : WatcherState) (t : WTask) : WatcherState :=
  match t.task_id with
  | none => s
  | some tid =>
    if tid ≠ "" ∧ tid ∉ s.seen then
      { s with
        queue := heappush s.queue (get_priority t, s.seqCounter, tid),
        seqCounter := s.seqCounter + 1,
        seen := s.seen ++ [tid],
        pushLog := s.pushLog ++ [tid] }
    else s

/-- The poll step (lines 157-175): load the pending store, assign missing
ids (persisting them back), then enqueue every task whose id has not been
seen this process lifetime. -/
def pollStep (s : WatcherState) : WatcherState :=
  let r := assignIds s.store s.cands (existingIds s.store)
  r.1.foldl enqueueOne { s with store := r.1 }

/-- Finalization of a task (success path lines 248-254; the exhausted-retries
path lines 270-276 updates the same state identically): append the record to
the completed store, drop the task from the pending store, and — crucially —
`seen_ids.discard(task_id)` (lines 254, 276, also 209). -/
def finalizeTask (t : WTask) (s : WatcherState) : WatcherState :=
  { s with
    completed := s.completed ++ [t],
    store := s.store.filter (fun x => x.task_id ≠ t.task_id),
    seen := match t.task_id with
      | some tid => s.seen.erase tid
      | none => s.seen }

/-- The pop of the main loop (line 183). -/
def popStep (s : WatcherState) : WatcherState :=
  match heappop s.queue with
  | some r => { s with queue := r.2 }
  | none => s

theorem enqueueOne_seen_mono (s : WatcherState) (t : WTask) {x : String}
    (hx : x ∈ s.seen) : x ∈ (enqueueOne s t).seen := by
  unfold enqueueOne
  match t.task_id with
  | none => exact hx
  | some tid =>
    by_cases h : tid ≠ "" ∧ tid ∉ s.seen
    · simp only [if_pos h]
      exact List.mem_append_left _ hx
    · simp only [if_neg h]
      exact hx

theorem foldl_enqueueOne_seen_mono (ts : List WTask) (s : WatcherState)
    {x : String} (hx : x ∈ s.seen) : x ∈ (ts.foldl enqueueOne s).seen := by
  induction ts generalizing s with
  | nil => exact hx
  | cons t ts ih => exact ih _ (enqueueOne_seen_mono s t hx)

theorem foldl_enqueueOne_ids_seen (ts : List WTask) (s : WatcherState) :
    ∀ t ∈ ts, ∀ tid, t.task_id = some tid → tid ≠ "" →
      tid ∈ (ts.foldl enqueueOne s).seen := by
  induction ts generalizing s with
  | nil => intro t ht; cases ht
  | cons u us ih =>
    intro t ht tid htid hne
    rcases List.mem_cons.mp ht with h | h
    · subst h
      rw [List.foldl_cons]
      refine foldl_enqueueOne_seen_mono us (enqueueOne s t) ?_
      unfold enqueueOne
      rw [htid]
      by_cases hseen : tid ∈ s.seen
      · have : ¬(tid ≠ "" ∧ tid ∉ s.seen) := by tauto
        simp only [if_neg this]
        exact hseen
      · simp only [if_pos (And.intro hne hseen)]
        exact List.mem_append_right _ (List.mem_singleton.mpr rfl)
    · exact ih (enqueueOne s u) t h tid htid hne

theorem enqueueOne_skip (s : WatcherState) (t : WTask)
    (h : ∀ tid, t.task_id = some tid → tid = "" ∨ tid ∈ s.seen) :
    enqueueOne s t = s := by
  unfold enqueueOne
  match htid : t.task_id with
  | none => rfl
  | some tid =>
    have := h tid htid
    have hcond : ¬(tid ≠ "" ∧ tid ∉ s.seen) := by tauto
    simp only [if_neg hcond]

theorem foldl_enqueueOne_skip (ts : List WTask) (s : WatcherState)
    (h : ∀ t ∈ ts, ∀ tid, t.task_id = some tid → tid = "" ∨ tid ∈ s.seen) :
    ts.foldl enqueueOne s = s := by
  induction ts with
  | nil => rfl
  | cons u us ih =>
    rw [List.foldl_cons, enqueueOne_skip s u (h u (List.mem_cons_self _ _))]
    exact ih (fun t ht => h t (List.mem_cons_of_mem _ ht))

theorem assignIds_of_all_truthy (ts : List WTask) (cands existing : List String)
    (h : ∀ t ∈ ts, truthyId t.task_id = true) :
    assignIds ts cands existing = (ts, existing) := by
  induction ts with
  | nil => rfl
  | cons u us ih =>
    unfold assignIds
    rw [if_pos (h u (List.mem_cons_self _ _)), ih (fun t ht => h t (List.mem_cons_of_mem _ ht))]

theorem enqueueOne_store (s : WatcherState) (t : WTask) :
    (enqueueOne s t).store = s.store := by
  unfold enqueueOne
  match t.task_id with
  | none => rfl
  | some tid =>
    by_cases h : tid ≠ "" ∧ tid ∉ s.seen
    · simp only [if_pos h]
    · simp only [if_neg h]

theorem foldl_enqueueOne_store (ts : List WTask) (s : WatcherState) :
    (ts.foldl enqueueOne s).store = s.store := by
  induction ts generalizing s with
  | nil => rfl
  | cons u us ih => rw [List.foldl_cons, ih, enqueueOne_store]

/-- pollStep unfolded (the `let` zeta-reduced). -/
theorem pollStep_eq (s : WatcherState) :
    pollStep s =
      (assignIds s.store s.cands (existingIds s.store)).1.foldl enqueueOne
        { s with store := (assignIds s.store s.cands (existingIds s.store)).1 } := rfl

theorem foldl_enqueueOne_count_of_seen (ts : List WTask) (s : WatcherState)
    (tid : String) (h : tid ∈ s.seen) :
    (ts.foldl enqueueOne s).pushLog.count tid = s.pushLog.count tid ∧
      tid ∈ (ts.foldl enqueueOne s).seen := by
  induction ts generalizing s with
  | nil => exact ⟨rfl, h⟩
  | cons u us ih =>
    rw [List.foldl_cons]
    match htid : u.task_id with
    | none =>
      have hstep : enqueueOne s u = s := by
        unfold enqueueOne; rw [htid]
      rw [hstep]
      exact ih s h
    | some tid' =>
      by_cases hc : tid' ≠ "" ∧ tid' ∉ s.seen
      · have hstep : enqueueOne s u =
            { s with
              queue := heappush s.queue (get_priority u, s.seqCounter, tid'),
              seqCounter := s.seqCounter + 1,
              seen := s.seen ++ [tid'],
              pushLog := s.pushLog ++ [tid'] } := by
          unfold enqueueOne; rw [htid]; simp only [if_pos hc]
        rw [hstep]
        have hne : tid' ≠ tid := fun he => hc.2 (he ▸ h)
        have h' : tid ∈ s.seen ++ [tid'] := List.mem_append_left _ h
        obtain ⟨hcount, hseen⟩ := ih
          { s with
            queue := heappush s.queue (get_priority u, s.seqCounter, tid'),
            seqCounter := s.seqCounter + 1,
            seen := s.seen ++ [tid'],
            pushLog := s.pushLog ++ [tid'] } h'
        refine ⟨?_, hseen⟩
        rw [hcount]
        show (s.pushLog ++ [tid']).count tid = s.pushLog.count tid
        rw [List.count_append]
        have hz : List.count tid [tid'] = 0 := by
          rw [List.count_eq_zero]
          intro hm
          exact hne (List.mem_singleton.mp hm).symm
        omega
      · have hstep : enqueueOne s u = s := by
          unfold enqueueOne; rw [htid]; simp only [if_neg hc]
        rw [hstep]
        exact ih s h

/-- C4. The poll step is idempotent: if after one poll every task in the
pending store carries a (truthy) `task_id` — which holds whenever the
candidate id stream sufficed for the missing ids — then a second poll with
no external mutation is the identity: it enqueues nothing, assigns no new
`task_id`, and leaves the whole watcher state (store, queue, seen-set,
sequence counter, push history) unchanged (watch_tasks.py lines 157-175). -/
theorem claim_C4 (s : WatcherState)
    (h : ∀ t ∈ (pollStep s).store, truthyId t.task_id = true) :
    pollStep (pollStep s) = pollStep s := by
  have hstore : (pollStep s).store =
      (assignIds s.store s.cands (existingIds s.store)).1 := by
    rw [pollStep_eq s, foldl_enqueueOne_store]
  have hseen : ∀ t ∈ (pollStep s).store, ∀ tid, t.task_id = some tid →
      tid ≠ "" → tid ∈ (pollStep s).seen := by
    intro t ht tid htid hne
    rw [hstore] at ht
    rw [pollStep_eq s]
    exact foldl_enqueueOne_ids_seen _ _ t ht tid htid hne
  have key : assignIds (pollStep s).store (pollStep s).cands
      (existingIds (pollStep s).store) =
      ((pollStep s).store, existingIds (pollStep s).store) :=
    assignIds_of_all_truthy _ _ _ h
  rw [pollStep_eq (pollStep s), key]
  have heta : { pollStep s with store := (pollStep s).store } = pollStep s := rfl
  rw [heta]
  apply foldl_enqueueOne_skip
  intro t ht tid htid
  by_cases hblank : tid = ""
  · exact Or.inl hblank
  · exact Or.inr (hseen t ht tid htid hblank)

/-- A one-task pending store whose task already has an id: concrete input
for the C4 witness. -/
def c4Start : WatcherState :=
  { store := [{ task_id := some "Task-a1",
                payload := some { urgency := some "high", task := "ping worker A" } }],
    completed := [], seen := [], queue := [], seqCounter := 0, cands := [],
    pushLog := [] }

/-- C4 witness: the idempotence theorem applied at a concrete state. -/
theorem claim_C4_witness :
    (∀ t ∈ (pollStep c4Start).store, truthyId t.task_id = true) ∧
      pollStep (pollStep c4Start) = pollStep c4Start :=
  ⟨by decide, claim_C4 c4Start (by decide)⟩

/-- The task of the C3 scenario. -/
def c3Task : WTask :=
  { task_id := some "Task-ab12",
    payload := some { urgency := some "high", task := "ping worker A" } }

/-- Fresh watcher state holding the C3 task in the pending store. -/
def c3Start : WatcherState :=
  { store := [c3Task], completed := [], seen := [], queue := [],
    seqCounter := 0, cands := [], pushLog := [] }

/-- The C3 scenario: poll (enqueues, marks seen), pop, finalize (moves the
task to the completed store, discards the id from the seen-set), then the
same `task_id` re-appears in the pending store, and the watcher polls
again. -/
def c3Final : WatcherState :=
  pollStep
    { finalizeTask c3Task (popStep (pollStep c3Start)) with store := [c3Task] }

/-- C3 counterexample: after the task was moved to the completed store, a
re-appearance of `"Task-ab12"` in the pending store is NOT ignored — the id
is pushed a second time within one process lifetime (the push history ends
up with two entries for it), contradicting the claim's "enqueued at most
once per process lifetime, including after it has been moved to the
completed store". The cause: lines 209, 254 and 276 of watch_tasks.py do
`seen_ids.discard(task_id)` when the task is finalized. -/
theorem claim_C3_counterexample :
    c3Final.pushLog = ["Task-ab12", "Task-ab12"] ∧
      ¬ c3Final.pushLog.count "Task-ab12" ≤ 1 := by decide

/-- C3 as amended: a `task_id` is enqueued at most once WHILE IT REMAINS IN
THE SEEN-SET — while `tid` is in `seen_ids`, a poll never pushes it again
(its push count is unchanged) and it stays in the seen-set; but finalizing a
task (moving it to the completed store) erases its id from the seen-set, so
a later re-appearance in the pending store is enqueued again. -/
theorem claim_C3 (s : WatcherState) (tid : String) (h : tid ∈ s.seen) :
    (pollStep s).pushLog.count tid = s.pushLog.count tid ∧
      tid ∈ (pollStep s).seen ∧
      ∀ t : WTask, t.task_id = some tid →
        (finalizeTask t s).seen = s.seen.erase tid := by
  rw [pollStep_eq s]
  obtain ⟨hcount, hseen⟩ :=
    foldl_enqueueOne_count_of_seen
      (assignIds s.store s.cands (existingIds s.store)).1
      { s with store := (assignIds s.store s.cands (existingIds s.store)).1 }
      tid h
  refine ⟨hcount, hseen, ?_⟩
  intro t htid
  simp [finalizeTask, htid]

/-- Watcher state with `"Task-zz99"` already seen: concrete input for the C3
witness. -/
def c3WStart : WatcherState :=
  { store := [{ task_id := some "Task-zz99",
                payload := some { urgency := some "low", task := "again" } }],
    completed := [], seen := ["Task-zz99"], queue := [], seqCounter := 1,
    cands := [], pushLog := ["Task-zz99"] }

/-- C3 witness: the amended theorem applied at a concrete state whose
seen-set already holds the id. -/
theorem claim_C3_witness :
    "Task-zz99" ∈ c3WStart.seen ∧
      ((pollStep c3WStart).pushLog.count "Task-zz99" =
          c3WStart.pushLog.count "Task-zz99" ∧
        "Task-zz99" ∈ (pollStep c3WStart).seen ∧
        ∀ t : WTask, t.task_id = some "Task-zz99" →
          (finalizeTask t c3WStart).seen = c3WStart.seen.erase "Task-zz99") :=
  ⟨by decide, claim_C3 c3WStart "Task-zz99" (by decide)⟩

/-! ## watch_tasks.py: the execution and retry loop (lines 219-282)

The loop mutates one task dict in place and appends snapshots of it to
`completed_tasks.json` (via `append_completed_task`, lines 65-74, which
`json.dump`s the file immediately). In the model the task is threaded as a
value, so appending `t` to the `completed` list is exactly the snapshot that
the Python code serializes at that moment — mutations performed after the
append (in particular line 279, `task.setdefault("attempts_info", []).
append(attempt_info)`, which runs AFTER `append_completed_task` on both the
success path at line 251 and the exhausted path at line 273) do not reach
the file. The loop body is parameterized by the two LLM oracles: `evalFn`
gives the evaluator verdict of the attempt performed when `attempts = k`
(line 228), and `replanFn` gives `refine_replan_task`'s output for a verdict
(line 260). The dispatch to the orchestrator (line 223) is not consulted by
the loop — its return value is discarded — so it needs no parameter. -/

/-- A task as the retry loop handles it: by this point the refinement block
(lines 193-216) guarantees the `payload` dict exists, so it is not optional
here. Timing fields are again omitted. -/
structure RTask where
  task_id : Option String := none
  payload : Payload := {}
  attempts : Nat := 0
  status : Option String := none
  attempts_info : List AttemptInfo := []
  deriving Repr, DecidableEq, Inhabited

/-- The while loop of lines 220-282. `fuel` bounds the number of iterations
so that the recursion is structural and concrete runs reduce in the kernel;
since `attempts` strictly increases on every non-success iteration and the
loop exits as soon as `attempts ≥ N` or an attempt succeeds, any
`fuel ≥ N - t.attempts` computes the loop's exact result (the claims below
instantiate `fuel = N` with `attempts = 0`). Returns the final in-memory
task and the completed store. -/
def execLoop (N : Nat) (evalFn : Nat → String) (replanFn : String → String) :
    Nat → RTask → List RTask → RTask × List RTask
  | 0, t, completed => (t, completed)
  | fuel + 1, t, completed =>
    if t.attempts < N then
      let raw := pyStrip (evalFn t.attempts)
      let eval_result := if raw = "" then "❌ No progress detected." else raw
      let info : AttemptInfo :=
        { tryIndex := t.attempts + 1,
          refined_task := t.payload.refined_task,
          evaluation_result := eval_result }
      if pyStartsWith eval_result "✅" then
        let t1 : RTask := { t with status := some "Success" }
        let completed1 := completed ++ [t1]
        let t2 := { t1 with attempts_info := t1.attempts_info ++ [info] }
        (t2, completed1)
      else
        let info1 := { info with replanned_task := some eval_result }
        let refined_replan := pyStrip (replanFn eval_result)
        let step :=
          if refined_replan ≠ "" then
            ({ t with payload.task := refined_replan },
             { info1 with refined_replan_task := some refined_replan })
          else
            ({ t with payload.task := eval_result }, info1)
        let t2 : RTask := { step.1 with attempts := step.1.attempts + 1 }
        let fin :=
          if t2.attempts ≥ N then
            let tf : RTask := { t2 with status := some "Failed" }
            (tf, completed ++ [tf])
          else (t2, completed)
        let t4 : RTask := { fin.1 with attempts_info := fin.1.attempts_info ++ [step.2] }
        execLoop N evalFn replanFn fuel t4 fin.2
    else (t, completed)

/-- An evaluator that marks every attempt as a failure. -/
def evalAllFail : Nat → String := fun _ => "❌ not achieved"

/-- An evaluator that marks the first attempt as a success. -/
def evalFirstOk : Nat → String := fun _ => "✅ task achieved"

/-- A replanner returning a fixed non-empty corrective instruction. -/
def replanFixed : String → String := fun _ => "corrective instruction"

/-- The refined task the C1 scenario starts the execution loop with. -/
def c1Task : RTask :=
  { task_id := some "Task-c1",
    payload := { urgency := some "high", task := "ping worker A",
                 refined := true, original_task := some "ping worker A",
                 refined_task := some "ping worker A" },
    attempts := 0 }

/-- C1 at its failing input. With `MAX_ATTEMPTS = 3` and an evaluator that
fails every attempt, the loop does finalize the task as `Failed` after
exactly 3 attempts (never 4: the in-memory task ends with `attempts = 3` and
3 `attempts_info` entries, and the completed store receives exactly one
record) — but the record WRITTEN to the completed store carries only 2
`attempts_info` entries, not 3, because line 279 appends the final attempt's
record to the task only after line 273 already serialized it. Likewise, on a
first-attempt success the written record has status `Success` but an empty
`attempts_info` (the in-memory task has 1 entry), not length 1 as the claim
states. -/
theorem claim_C1 :
    (let r := execLoop 3 evalAllFail replanFixed 3 c1Task []
     r.2.map (fun c => (c.status, c.attempts, c.attempts_info.length)) =
         [(some "Failed", 3, 2)] ∧
       r.1.attempts = 3 ∧ r.1.attempts_info.length = 3) ∧
    (let r := execLoop 3 evalFirstOk replanFixed 3 c1Task []
     r.2.map (fun c => (c.status, c.attempts, c.attempts_info.length)) =
         [(some "Success", 0, 0)] ∧
       r.1.attempts_info.length = 1) := by decide

/-! ## delegator: a2a data shapes

The shapes of the a2a SDK values as the delegator uses them. `Part` is a
wrapper (a pydantic `RootModel`) whose single attribute is `root`; the
wrapped object carries `kind` and the kind-specific fields. The wrapper
itself has NO `kind` attribute — only `part.root.kind` exists — which
matters for the fallback arm of `convert_part`. The task-state enum is the
closed set of the protocol. -/

inductive TaskState
  | submitted
  | working
  | input_required
  | completed
  | canceled
  | failed
  | unknown
  deriving DecidableEq, Repr, Inhabited

/-- A JSON-RPC error payload (`JSONRPCError`): `code` and `message`. -/
structure RpcError where
  code : Int
  message : String
  deriving DecidableEq, Repr, Inhabited

/-- The `file` object of a file part: declared name, MIME type, and the
base64-encoded content as received (decoding to raw bytes is not modelled —
no claim depends on the byte content, only on where it is stored). -/
structure FileContent where
  name : String
  mimeType : String
  bytes : String
  deriving DecidableEq, Repr, Inhabited

/-- The wrapped part object: its `kind` discriminator (an open string — the
fallback arm of `convert_part` exists precisely for unrecognized values) and
the kind-specific fields. -/
structure PartRoot where
  kind : String
  text : String := ""
  data : List (String × String) := []
  file : Option FileContent := none
  deriving DecidableEq, Repr, Inhabited

/-- The `Part` wrapper: only `root`. There is no `kind` field here. -/
structure Part where
  root : PartRoot
  deriving DecidableEq, Repr, Inhabited

/-- A `Message` reply: terminal, stateless. -/
structure MsgVal where
  messageId : String := ""
  parts : List Part := []
  deriving DecidableEq, Repr, Inhabited

/-- `task.status`: the lifecycle state and an optional status message. -/
structure TaskStatus where
  state : TaskState
  message : Option MsgVal := none
  deriving DecidableEq, Repr, Inhabited

/-- One artifact attached to a task. -/
structure ArtifactVal where
  parts : List Part := []
  deriving DecidableEq, Repr, Inhabited

/-- A `Task` as returned by a worker. -/
structure TaskVal where
  id : String
  contextId : Option String := none
  status : TaskStatus
  artifacts : Option (List ArtifactVal) := none
  deriving DecidableEq, Repr, Inhabited

/-- Python exceptions the delegator can raise on these paths. -/
inductive PyErr
  | valueError (msg : String)
  | attributeError (attr : String)
  deriving DecidableEq, Repr, Inhabited

/-- The session state entries of `tool_context.state` that
`HostAgent.send_message` reads or writes. -/
structure SessionState where
  agent : Option String := none
  task_id : Option String := none
  context_id : Option String := none
  message_id : Option String := none
  session_active : Bool := false
  deriving DecidableEq, Repr, Inhabited

/-- A stored artifact blob (`types.Blob`): MIME type and content (kept as
the received base64 text, see `FileContent`). -/
structure Blob where
  mimeType : String
  bytesB64 : String
  deriving DecidableEq, Repr, Inhabited

/-- The tool context: session state, the external artifact store
(`save_artifact`), and the action flags the conversion sets. -/
structure ToolCtx where
  state : SessionState := {}
  artifacts : List (String × Blob) := []
  skip_summarization : Bool := false
  escalate : Bool := false
  deriving DecidableEq, Repr, Inhabited

/-- A value produced by `convert_part`: pass-through text, a pass-through
structured value, or a `DataPart` reference marker built for a stored
file. -/
inductive ConvValue
  | text (s : String)
  | data (d : List (String × String))
  | dataPart (d : List (String × String))
  deriving DecidableEq, Repr, Inhabited

instance {ε α : Type} [DecidableEq ε] [DecidableEq α] : DecidableEq (Except ε α) :=
  fun x y =>
    match x, y with
    | .ok a, .ok b =>
      if h : a = b then isTrue (by rw [h]) else isFalse (by intro hh; cases hh; exact h rfl)
    | .error a, .error b =>
      if h : a = b then isTrue (by rw [h]) else isFalse (by intro hh; cases hh; exact h rfl)
    | .ok _, .error _ => isFalse (by intro hh; cases hh)
    | .error _, .ok _ => isFalse (by intro hh; cases hh)

/-! ## delegator/agent.py: `convert_part` and `convert_parts` (lines 308-333) -/

/-- convert_part (agent.py lines 316-333). The if-chain dispatches on
`part.root.kind`; the file arm saves the decoded content as an artifact
under the declared name, sets the action flags, and returns a
`DataPart({"artifact-file-id": name})` reference marker. The fallback arm
(line 333) evaluates `f"Unknown type: {part.kind}"` — but the `Part`
wrapper has no `kind` attribute (the discriminator lives at `part.root.kind`),
so Python raises `AttributeError` there instead of returning the
placeholder string. Accessing `.name` on a missing file object likewise
raises. -/
def convert_part (part : Part) (ctx : ToolCtx) : ToolCtx × Except PyErr ConvValue :=
  if part.root.kind = "text" then (ctx, .ok (.text part.root.text))
  else if part.root.kind = "data" then (ctx, .ok (.data part.root.data))
  else if part.root.kind = "file" then
    match part.root.file with
    | some f =>
      ({ ctx with
         artifacts := ctx.artifacts ++ [(f.name, { mimeType := f.mimeType, bytesB64 := f.bytes })],
         skip_summarization := true,
         escalate := true },
       .ok (.dataPart [("artifact-file-id", f.name)]))
    | none => (ctx, .error (.attributeError "name"))
  else (ctx, .error (.attributeError "kind"))

/-- Threading of Python exception propagation: run the continuation on a
normal result, abort on a raised exception (keeping the context as mutated
so far). -/
def pyBind {α β : Type} (r : ToolCtx × Except PyErr α)
    (f : ToolCtx → α → ToolCtx × Except PyErr β) : ToolCtx × Except PyErr β :=
  match r with
  | (c, .error e) => (c, .error e)
  | (c, .ok v) => f c v

theorem pyBind_state {α β : Type} {s : SessionState} (r : ToolCtx × Except PyErr α)
    (f : ToolCtx → α → ToolCtx × Except PyErr β) (hr : r.1.state = s)
    (hf : ∀ c v, (f c v).1.state = c.state) : (pyBind r f).1.state = s := by
  match r with
  | (c, .error e) => exact hr
  | (c, .ok v) =>
    show (f c v).1.state = s
    rw [hf c v]
    exact hr

theorem pyBind_ok {α β : Type} {r : ToolCtx × Except PyErr α} {c : ToolCtx} {v : α}
    (f : ToolCtx → α → ToolCtx × Except PyErr β) (hr : r = (c, .ok v)) :
    pyBind r f = f c v := by rw [hr]; rfl

/-- convert_parts (agent.py lines 308-313): convert each part in order,
threading the tool context; an exception aborts the remaining parts. -/
def convert_parts : List Part → ToolCtx → ToolCtx × Except PyErr (List ConvValue)
  | [], ctx => (ctx, .ok [])
  | p :: ps, ctx =>
    pyBind (convert_part p ctx) fun ctx' v =>
      pyBind (convert_parts ps ctx') fun ctx'' vs => (ctx'', .ok (v :: vs))

/-- C8 at its failing input. The conversion does map `text` to its text,
`data` to its structured value, and `file` to a stored artifact under the
declared name plus an `{"artifact-file-id": name}` reference marker — but
for a part of unrecognized kind (`"video"`), the fallback arm raises
`AttributeError` (its f-string reads `part.kind`, an attribute the `Part`
wrapper does not have; only `part.root.kind` exists), so the conversion is
NOT total: it raises instead of returning the diagnostic placeholder. -/
theorem claim_C8 :
    convert_part ⟨{ kind := "text", text := "hello" }⟩ {} =
        ({}, .ok (.text "hello")) ∧
      convert_part ⟨{ kind := "data", data := [("k", "v")] }⟩ {} =
        ({}, .ok (.data [("k", "v")])) ∧
      convert_part ⟨{ kind := "file", file := some ⟨"plan.png", "image/png", "QUJD"⟩ }⟩ {} =
        ({ artifacts := [("plan.png", ⟨"image/png", "QUJD"⟩)],
           skip_summarization := true, escalate := true },
         .ok (.dataPart [("artifact-file-id", "plan.png")])) ∧
      convert_part ⟨{ kind := "video" }⟩ {} =
        ({}, .error (.attributeError "kind")) := by decide

/-! ## delegator/remote_agent_connection.py: the Remote Task Client

`RemoteAgentConnections.send_message` (lines 44-102). Each element of the
stream is a parsed response whose `root` is either a `JSONRPCErrorResponse`
or a success carrying an event: a `Message`, a `Task`, a
`TaskStatusUpdateEvent` (the only event shape with a `final` attribute), or
a `TaskArtifactUpdateEvent`. The function returns a `Message`, an optional
`Task`, or the JSON-RPC error payload AS A VALUE — its return type embeds
errors instead of raising, which is exactly the "FIX: check for error
response first" behaviour of lines 70-71 and 93-94. -/

/-- An event delivered by a success response (`response.root.result`). -/
inductive A2AEvent
  | message (m : MsgVal)
  | taskObj (t : TaskVal)
  | statusUpdate (t : TaskVal) (final : Bool)
  | artifactUpdate (t : TaskVal)
  deriving DecidableEq, Repr, Inhabited

/-- One parsed wire response: an error response or a success event. -/
inductive StreamResp
  | error (e : RpcError)
  | ok (ev : A2AEvent)
  deriving DecidableEq, Repr, Inhabited

/-- Python `hasattr(event, "final") and event.final`: only
`TaskStatusUpdateEvent` has the attribute. -/
def eventFinal : A2AEvent → Option Bool
  | .statusUpdate _ f => some f
  | _ => none

/-- The task payload of a non-message event (what the unary branch returns
as `response.root.result`). -/
def eventTask : A2AEvent → Option TaskVal
  | .message _ => none
  | .taskObj t => some t
  | .statusUpdate t _ => some t
  | .artifactUpdate t => some t

/-- What `send_message` returns: an error payload value, a terminal
`Message`, or the last task update observed (`None` if there was none). -/
inductive SendResult
  | errorVal (e : RpcError)
  | message (m : MsgVal)
  | task (t : Option TaskVal)
  deriving DecidableEq, Repr, Inhabited

/-- The streaming loop (lines 64-86): `task = None`; for each response —
error payload → return it as a value; terminal `Message` → return it
immediately, consuming nothing further; otherwise deliver the event to the
callback (when one was supplied) and remember the merged task; stop when the
event is marked final; when the stream ends, return the last task (possibly
`None`). -/
def send_message_streaming (cb : Option (A2AEvent → TaskVal)) :
    List StreamResp → Option TaskVal → SendResult
  | [], task => .task task
  | .error e :: _, _ => .errorVal e
  | .ok ev :: rest, task =>
    match ev with
    | .message m => .message m
    | _ =>
      let task' := match cb with
        | some f => some (f ev)
        | none => task
      if eventFinal ev = some true then .task task'
      else send_message_streaming cb rest task'

/-- The non-streaming branch (lines 88-102): one response; error payload →
returned as a value; `Message` → returned; otherwise the callback is
invoked once (its merge result is not used — line 100 discards it) and the
response's task object itself is returned. -/
def send_message_unary (_cb : Option (A2AEvent → TaskVal)) (resp : StreamResp) :
    SendResult :=
  match resp with
  | .error e => .errorVal e
  | .ok (.message m) => .message m
  | .ok ev => .task (eventTask ev)

/-- send_message (lines 44-102): dispatch on the agent card's streaming
capability. -/
def send_message (streamingCap : Bool) (cb : Option (A2AEvent → TaskVal))
    (events : List StreamResp) (unary : StreamResp) : SendResult :=
  if streamingCap then send_message_streaming cb events none
  else send_message_unary cb unary

/-- An event the streaming loop passes over without returning: a successful
non-`Message` event not marked final. -/
def ContinuesStream : StreamResp → Prop
  | .error _ => False
  | .ok (.message _) => False
  | .ok ev => eventFinal ev ≠ some true

/-- After handling one continuing event, the loop recurses with the merged
task. -/
theorem send_message_streaming_cons_continue (cb : Option (A2AEvent → TaskVal))
    (ev : A2AEvent) (rest : List StreamResp) (acc : Option TaskVal)
    (h : ContinuesStream (.ok ev)) :
    send_message_streaming cb (.ok ev :: rest) acc =
      send_message_streaming cb rest
        (match cb with | some f => some (f ev) | none => acc) := by
  match ev with
  | .message m => exact absurd h (by simp [ContinuesStream])
  | .taskObj t => simp [send_message_streaming, eventFinal]
  | .artifactUpdate t => simp [send_message_streaming, eventFinal]
  | .statusUpdate t f =>
    cases f with
    | false => simp [send_message_streaming, eventFinal]
    | true => exact absurd h (by simp [ContinuesStream, eventFinal])

/-! ## delegator/agent.py: `HostAgent.send_message` (lines 210-305)

The session coordinator: reject unknown workers, record the active worker,
dispatch, and translate the result. In-place mutation of
`tool_context.state` becomes state threading, and a raised exception becomes
an `Except.error` paired with the context as mutated up to the raise. -/

/-- The list of lines 278-281: the states that clear `session_active`. -/
def terminalStates : List TaskState :=
  [TaskState.completed, TaskState.canceled, TaskState.failed, TaskState.unknown]

/-- The artifact loop of lines 301-303: convert each artifact's parts in
order, extending the output. (Python guards the loop with
`if task.artifacts:`, under which an empty list skips the loop — the same
result as folding over the empty list.) -/
def convertArtifacts : List ArtifactVal → ToolCtx → ToolCtx × Except PyErr (List ConvValue)
  | [], ctx => (ctx, .ok [])
  | a :: rest, ctx =>
    pyBind (convert_parts a.parts ctx) fun ctx' vs =>
      pyBind (convertArtifacts rest ctx') fun ctx'' vs' => (ctx'', .ok (vs ++ vs'))

/-- Output collection, lines 297-305: the status message's parts first (when
present), then all artifact parts, in order. -/
def collectOutputs (t : TaskVal) (ctx : ToolCtx) : ToolCtx × Except PyErr (List ConvValue) :=
  pyBind (match t.status.message with
          | some m => convert_parts m.parts ctx
          | none => (ctx, .ok [])) fun ctx1 vals =>
    match t.artifacts with
    | none => (ctx1, .ok vals)
    | some arts =>
      pyBind (convertArtifacts arts ctx1) fun ctx2 vals' => (ctx2, .ok (vals ++ vals'))

/-- The session-state updates of lines 277-286: `session_active` becomes
"state not in the terminal list"; `context_id` is persisted only when the
task carries a truthy (non-empty) `contextId`; `task_id` is always set to
the task's id. -/
def hostTaskCtx (t : TaskVal) (ctx : ToolCtx) : ToolCtx :=
  let ctx1 : ToolCtx :=
    { ctx with state.session_active := decide (t.status.state ∉ terminalStates) }
  let ctx2 : ToolCtx := match t.contextId with
    | some c => if c ≠ "" then { ctx1 with state.context_id := some c } else ctx1
    | none => ctx1
  { ctx2 with state.task_id := some t.id }

/-- Handling of a `Task` result, lines 274-305: update the session state,
then — `input_required` sets the pause flags and falls through to output
collection; `canceled` and `failed` raise a `ValueError` naming the worker
and the task id; every other state collects the outputs. -/
def hostHandleTask (agent_name : String) (t : TaskVal) (ctx : ToolCtx) :
    ToolCtx × Except PyErr (List ConvValue) :=
  let ctx3 := hostTaskCtx t ctx
  if t.status.state = TaskState.input_required then
    collectOutputs t { ctx3 with skip_summarization := true, escalate := true }
  else if t.status.state = TaskState.canceled then
    (ctx3, .error (.valueError ("Agent " ++ agent_name ++ " task " ++ t.id ++ " is cancelled")))
  else if t.status.state = TaskState.failed then
    (ctx3, .error (.valueError ("Agent " ++ agent_name ++ " task " ++ t.id ++ " failed")))
  else collectOutputs t ctx3

/-- HostAgent.send_message (lines 210-305), given the outcome of the remote
call as a `SendResult`: unknown worker → `ValueError` before any state
change; transport error value → `session_active := false` and a `ValueError`
carrying the worker name and the error's message and code (lines 262-266);
`Message` → its converted parts; `None` task (a zero-event stream) → the
`task.status` attribute access on `None` raises; a `Task` →
`hostHandleTask`. -/
def hostSendMessage (registry : List String) (agent_name : String)
    (resp : SendResult) (ctx : ToolCtx) : ToolCtx × Except PyErr (List ConvValue) :=
  if agent_name ∉ registry then
    (ctx, .error (.valueError ("Agent " ++ agent_name ++ " not found")))
  else
    let ctx0 : ToolCtx := { ctx with state.agent := some agent_name }
    match resp with
    | .errorVal e =>
      ({ ctx0 with state.session_active := false },
       .error (.valueError ("Agent '" ++ agent_name ++ "' returned an error: " ++
         e.message ++ " (Code: " ++ toString e.code ++ ")")))
    | .message m => convert_parts m.parts ctx0
    | .task none => (ctx0, .error (.attributeError "status"))
    | .task (some t) => hostHandleTask agent_name t ctx0

theorem convert_part_state (p : Part) (ctx : ToolCtx) :
    (convert_part p ctx).1.state = ctx.state := by
  unfold convert_part
  split
  · rfl
  · split
    · rfl
    · split
      · split
        · rfl
        · rfl
      · rfl

theorem convert_parts_state : ∀ (ps : List Part) (ctx : ToolCtx),
    (convert_parts ps ctx).1.state = ctx.state
  | [], _ => rfl
  | p :: ps, ctx => by
    unfold convert_parts
    apply pyBind_state _ _ (convert_part_state p ctx)
    intro c v
    apply pyBind_state _ _ (convert_parts_state ps c)
    intro c2 vs
    rfl

theorem convertArtifacts_state : ∀ (arts : List ArtifactVal) (ctx : ToolCtx),
    (convertArtifacts arts ctx).1.state = ctx.state
  | [], _ => rfl
  | a :: rest, ctx => by
    unfold convertArtifacts
    apply pyBind_state _ _ (convert_parts_state a.parts ctx)
    intro c vs
    apply pyBind_state _ _ (convertArtifacts_state rest c)
    intro c2 vs'
    rfl

theorem collectOutputs_state (t : TaskVal) (ctx : ToolCtx) :
    (collectOutputs t ctx).1.state = ctx.state := by
  unfold collectOutputs
  have hfirst : (match t.status.message with
      | some m => convert_parts m.parts ctx
      | none => (ctx, .ok ([] : List ConvValue))).1.state = ctx.state := by
    match t.status.message with
    | none => rfl
    | some m => exact convert_parts_state m.parts ctx
  apply pyBind_state _ _ hfirst
  intro c vals
  match t.artifacts with
  | none => rfl
  | some arts =>
    apply pyBind_state _ _ (convertArtifacts_state arts c)
    intro c2 vals'
    rfl

theorem hostTaskCtx_state (t : TaskVal) (ctx : ToolCtx) :
    (hostTaskCtx t ctx).state =
      { ctx.state with
        session_active := decide (t.status.state ∉ terminalStates),
        context_id := match t.contextId with
          | some c => if c ≠ "" then some c else ctx.state.context_id
          | none => ctx.state.context_id,
        task_id := some t.id } := by
  unfold hostTaskCtx
  match t.contextId with
  | none => rfl
  | some c =>
    by_cases hc : c ≠ ""
    · simp only [if_pos hc]
    · simp only [if_neg hc]

theorem hostHandleTask_state (name : String) (t : TaskVal) (ctx : ToolCtx) :
    (hostHandleTask name t ctx).1.state = (hostTaskCtx t ctx).state := by
  unfold hostHandleTask
  split
  · rw [collectOutputs_state]
  · split
    · rfl
    · split
      · rfl
      · rw [collectOutputs_state]

/-- A part whose kind the conversion recognizes (with, for a file part, the
file object present). -/
def KnownKind (p : Part) : Prop :=
  p.root.kind = "text" ∨ p.root.kind = "data" ∨
    (p.root.kind = "file" ∧ p.root.file ≠ none)

theorem convert_part_ok (p : Part) (ctx : ToolCtx) (h : KnownKind p) :
    ∃ ctx' v, convert_part p ctx = (ctx', .ok v) := by
  unfold convert_part
  rcases h with h | h | ⟨h, hf⟩
  · rw [if_pos h]
    exact ⟨_, _, rfl⟩
  · by_cases h1 : p.root.kind = "text"
    · rw [if_pos h1]
      exact ⟨_, _, rfl⟩
    · rw [if_neg h1, if_pos h]
      exact ⟨_, _, rfl⟩
  · have h1 : p.root.kind ≠ "text" := by rw [h]; decide
    have h2 : p.root.kind ≠ "data" := by rw [h]; decide
    rw [if_neg h1, if_neg h2, if_pos h]
    match hfm : p.root.file with
    | some f => exact ⟨_, _, rfl⟩
    | none => exact absurd hfm hf

theorem convert_parts_ok : ∀ (ps : List Part) (ctx : ToolCtx),
    (∀ p ∈ ps, KnownKind p) →
    ∃ ctx' vs, convert_parts ps ctx = (ctx', .ok vs)
  | [], ctx, _ => ⟨ctx, [], rfl⟩
  | p :: ps, ctx, h => by
    obtain ⟨c1, v, hp⟩ := convert_part_ok p ctx (h p (List.mem_cons_self _ _))
    obtain ⟨c2, vs, hps⟩ :=
      convert_parts_ok ps c1 (fun q hq => h q (List.mem_cons_of_mem _ hq))
    refine ⟨c2, v :: vs, ?_⟩
    unfold convert_parts
    rw [pyBind_ok _ hp, pyBind_ok _ hps]

theorem convertArtifacts_ok : ∀ (arts : List ArtifactVal) (ctx : ToolCtx),
    (∀ a ∈ arts, ∀ p ∈ a.parts, KnownKind p) →
    ∃ ctx' vs, convertArtifacts arts ctx = (ctx', .ok vs)
  | [], ctx, _ => ⟨ctx, [], rfl⟩
  | a :: rest, ctx, h => by
    obtain ⟨c1, vs, hp⟩ :=
      convert_parts_ok a.parts ctx (h a (List.mem_cons_self _ _))
    obtain ⟨c2, vs', hps⟩ :=
      convertArtifacts_ok rest c1 (fun b hb => h b (List.mem_cons_of_mem _ hb))
    refine ⟨c2, vs ++ vs', ?_⟩
    unfold convertArtifacts
    rw [pyBind_ok _ hp, pyBind_ok _ hps]

theorem collectOutputs_ok (t : TaskVal) (ctx : ToolCtx)
    (hmsg : ∀ m, t.status.message = some m → ∀ p ∈ m.parts, KnownKind p)
    (harts : ∀ arts, t.artifacts = some arts → ∀ a ∈ arts, ∀ p ∈ a.parts, KnownKind p) :
    ∃ ctx' vals, collectOutputs t ctx = (ctx', .ok vals) := by
  unfold collectOutputs
  match hm : t.status.message with
  | none =>
    match ha : t.artifacts with
    | none => exact ⟨ctx, [], rfl⟩
    | some arts =>
      obtain ⟨c2, vals', hca⟩ := convertArtifacts_ok arts ctx (harts arts ha)
      refine ⟨c2, [] ++ vals', ?_⟩
      show pyBind (ctx, .ok []) _ = _
      rw [pyBind_ok _ rfl]
      show pyBind (convertArtifacts arts ctx) _ = _
      rw [pyBind_ok _ hca]
  | some m =>
    obtain ⟨c1, vals, hcp⟩ := convert_parts_ok m.parts ctx (hmsg m hm)
    match ha : t.artifacts with
    | none =>
      refine ⟨c1, vals, ?_⟩
      rw [pyBind_ok _ hcp]
    | some arts =>
      obtain ⟨c2, vals', hca⟩ := convertArtifacts_ok arts c1 (harts arts ha)
      refine ⟨c2, vals ++ vals', ?_⟩
      rw [pyBind_ok _ hcp]
      show pyBind (convertArtifacts arts c1) _ = _
      rw [pyBind_ok _ hca]

/-- C5. Transport-level JSON-RPC error responses: the Remote Task Client
returns the error payload as a distinct value — in streaming mode an error
response arriving after any number of ordinary task updates is returned
directly (the model's return type embeds errors rather than raising, lines
70-71), and likewise in unary mode (lines 93-94); and when the Session
Coordinator receives such an error value it sets `session_active := false`
and raises a `ValueError` whose message names the worker and carries the
underlying error message and code (agent.py lines 262-266). -/
theorem claim_C5 :
    (∀ (cb : Option (A2AEvent → TaskVal)) (pre : List StreamResp) (e : RpcError)
        (post : List StreamResp) (acc : Option TaskVal),
      (∀ x ∈ pre, ContinuesStream x) →
      send_message_streaming cb (pre ++ .error e :: post) acc = .errorVal e) ∧
    (∀ (cb : Option (A2AEvent → TaskVal)) (e : RpcError),
      send_message_unary cb (.error e) = .errorVal e) ∧
    (∀ (registry : List String) (name : String) (e : RpcError) (ctx : ToolCtx),
      name ∈ registry →
      hostSendMessage registry name (.errorVal e) ctx =
        ({ ctx with state.agent := some name, state.session_active := false },
         .error (.valueError ("Agent '" ++ name ++ "' returned an error: " ++
           e.message ++ " (Code: " ++ toString e.code ++ ")")))) := by
  refine ⟨?_, ?_, ?_⟩
  · intro cb pre e post acc h
    induction pre generalizing acc with
    | nil => rfl
    | cons x pre ih =>
      have hx := h x (List.mem_cons_self _ _)
      have hrest : ∀ y ∈ pre, ContinuesStream y :=
        fun y hy => h y (List.mem_cons_of_mem _ hy)
      match x with
      | .error e' => exact absurd hx (by simp [ContinuesStream])
      | .ok ev =>
        rw [List.cons_append, send_message_streaming_cons_continue cb ev _ acc hx]
        exact ih _ hrest
  · intro cb e
    rfl
  · intro registry name e ctx h
    unfold hostSendMessage
    rw [if_neg (not_not_intro h)]

/-- C5 witness: a streaming call whose second response is an error payload,
and the coordinator's handling of that error value, at concrete inputs. -/
theorem claim_C5_witness :
    send_message_streaming none
        ([.ok (.artifactUpdate { id := "t1", status := { state := .working } })] ++
          .error ⟨-32600, "bad request"⟩ :: []) none =
      .errorVal ⟨-32600, "bad request"⟩ ∧
    send_message_unary none (.error ⟨-32600, "bad request"⟩) =
      .errorVal ⟨-32600, "bad request"⟩ ∧
    ("workerA" ∈ ["workerA"] ∧
      hostSendMessage ["workerA"] "workerA" (.errorVal ⟨-32600, "bad request"⟩) {} =
        ({ ({} : ToolCtx) with state.agent := some "workerA", state.session_active := false },
         .error (.valueError ("Agent '" ++ "workerA" ++ "' returned an error: " ++
           "bad request" ++ " (Code: " ++ toString (-32600 : Int) ++ ")")))) :=
  ⟨claim_C5.1 none [.ok (.artifactUpdate { id := "t1", status := { state := .working } })]
      ⟨-32600, "bad request"⟩ [] none
      (by intro x hx; rw [List.mem_singleton] at hx; subst hx
          simp [ContinuesStream, eventFinal]),
   claim_C5.2.1 none ⟨-32600, "bad request"⟩,
   by decide,
   claim_C5.2.2 ["workerA"] "workerA" ⟨-32600, "bad request"⟩ {} (by decide)⟩

/-- C6. Streaming-mode termination behaviour: (1) a terminal `Message`
arriving after any run of ordinary (non-final, non-message, non-error) task
updates is returned immediately, and the result does not depend on whatever
events follow it — they are never consumed (lines 76-77); (2) a zero-event
stream returns the absent task `none`, not a `Task` (line 65 and 86); (3)
when no task update is ever delivered to the callback (no callback was
supplied), the client can only return an absent task, a `Message`, or an
error value — never a present `Task`. -/
theorem claim_C6 :
    (∀ (cb : Option (A2AEvent → TaskVal)) (pre post : List StreamResp)
        (m : MsgVal) (acc : Option TaskVal),
      (∀ x ∈ pre, ContinuesStream x) →
      send_message_streaming cb (pre ++ .ok (.message m) :: post) acc = .message m) ∧
    (∀ cb : Option (A2AEvent → TaskVal),
      send_message_streaming cb [] none = .task none) ∧
    (∀ (evs : List StreamResp) (t : TaskVal),
      send_message_streaming none evs none ≠ .task (some t)) := by
  refine ⟨?_, ?_, ?_⟩
  · intro cb pre post m acc h
    induction pre generalizing acc with
    | nil => rfl
    | cons x pre ih =>
      have hx := h x (List.mem_cons_self _ _)
      have hrest : ∀ y ∈ pre, ContinuesStream y :=
        fun y hy => h y (List.mem_cons_of_mem _ hy)
      match x with
      | .error e' => exact absurd hx (by simp [ContinuesStream])
      | .ok ev =>
        rw [List.cons_append, send_message_streaming_cons_continue cb ev _ acc hx]
        exact ih _ hrest
  · intro cb
    rfl
  · intro evs t
    induction evs with
    | nil => simp [send_message_streaming]
    | cons x rest ih =>
      match x with
      | .error e => simp [send_message_streaming]
      | .ok (.message m) => simp [send_message_streaming]
      | .ok (.taskObj t') => simpa [send_message_streaming, eventFinal] using ih
      | .ok (.artifactUpdate t') => simpa [send_message_streaming, eventFinal] using ih
      | .ok (.statusUpdate t' f) =>
        cases f with
        | true => simp [send_message_streaming, eventFinal]
        | false => simpa [send_message_streaming, eventFinal] using ih

/-- C6 witness: two `working` status updates followed by a terminal
`Message` and a trailing event — the message is returned, independent of the
trailing event; and the zero-event stream returns the absent task. -/
theorem claim_C6_witness :
    send_message_streaming none
        ([.ok (.statusUpdate { id := "t1", status := { state := .working } } false),
          .ok (.statusUpdate { id := "t1", status := { state := .working } } false)] ++
          .ok (.message { messageId := "m1" }) ::
            [.ok (.taskObj { id := "t1", status := { state := .completed } })]) none =
      .message { messageId := "m1" } ∧
    send_message_streaming none [] none = .task none :=
  ⟨claim_C6.1 none
      [.ok (.statusUpdate { id := "t1", status := { state := .working } } false),
       .ok (.statusUpdate { id := "t1", status := { state := .working } } false)]
      [.ok (.taskObj { id := "t1", status := { state := .completed } })]
      { messageId := "m1" } none
      (by intro x hx
          rcases List.mem_cons.mp hx with h | h
          · subst h; simp [ContinuesStream, eventFinal]
          · rw [List.mem_singleton] at h; subst h
            simp [ContinuesStream, eventFinal]),
   claim_C6.2.1 none⟩

/-- C7. Dispatch returning a `Task`: the coordinator sets `session_active`
exactly to "state not in {completed, canceled, failed, unknown}", always
persists the task id for the next turn, persists the task's (truthy)
`contextId` when it carries one, raises a `ValueError` naming the worker and
task id when the state is `canceled` or `failed` (and in no other state,
provided the parts convert cleanly), and otherwise returns the converted
outputs (agent.py lines 274-305). -/
theorem claim_C7 (registry : List String) (name : String) (t : TaskVal)
    (ctx : ToolCtx) (hreg : name ∈ registry)
    (hmsg : ∀ m, t.status.message = some m → ∀ p ∈ m.parts, KnownKind p)
    (harts : ∀ arts, t.artifacts = some arts → ∀ a ∈ arts, ∀ p ∈ a.parts, KnownKind p) :
    ((hostSendMessage registry name (.task (some t)) ctx).1.state.session_active =
        decide (t.status.state ∉ terminalStates)) ∧
      ((hostSendMessage registry name (.task (some t)) ctx).1.state.task_id = some t.id) ∧
      (∀ c, t.contextId = some c → c ≠ "" →
        (hostSendMessage registry name (.task (some t)) ctx).1.state.context_id = some c) ∧
      (t.status.state = TaskState.canceled →
        (hostSendMessage registry name (.task (some t)) ctx).2 =
          .error (.valueError ("Agent " ++ name ++ " task " ++ t.id ++ " is cancelled"))) ∧
      (t.status.state = TaskState.failed →
        (hostSendMessage registry name (.task (some t)) ctx).2 =
          .error (.valueError ("Agent " ++ name ++ " task " ++ t.id ++ " failed"))) ∧
      (t.status.state ≠ TaskState.canceled → t.status.state ≠ TaskState.failed →
        ∃ vals, (hostSendMessage registry name (.task (some t)) ctx).2 = .ok vals) := by
  have hred : hostSendMessage registry name (.task (some t)) ctx =
      hostHandleTask name t { ctx with state.agent := some name } := by
    unfold hostSendMessage
    rw [if_neg (not_not_intro hreg)]
  rw [hred]
  have hstate := (hostHandleTask_state name t
    { ctx with state.agent := some name }).trans
    (hostTaskCtx_state t { ctx with state.agent := some name })
  refine ⟨?_, ?_, ?_, ?_, ?_, ?_⟩
  · rw [hstate]
  · rw [hstate]
  · intro c hc hc'
    rw [hstate, hc]
    show (if c ≠ "" then some c else _) = some c
    rw [if_pos hc']
  · intro hst
    unfold hostHandleTask
    rw [if_neg (by rw [hst]; decide), if_pos hst]
  · intro hst
    unfold hostHandleTask
    rw [if_neg (by rw [hst]; decide), if_neg (by rw [hst]; decide), if_pos hst]
  · intro h1 h2
    unfold hostHandleTask
    by_cases hin : t.status.state = TaskState.input_required
    · rw [if_pos hin]
      obtain ⟨c', vals, hco⟩ := collectOutputs_ok t
        { hostTaskCtx t { ctx with state.agent := some name } with
          skip_summarization := true, escalate := true } hmsg harts
      rw [hco]
      exact ⟨vals, rfl⟩
    · rw [if_neg hin, if_neg h1, if_neg h2]
      obtain ⟨c', vals, hco⟩ := collectOutputs_ok t
        (hostTaskCtx t { ctx with state.agent := some name }) hmsg harts
      rw [hco]
      exact ⟨vals, rfl⟩

/-- The task of the C7 witness: a worker reply in state `completed` carrying
a context id. -/
def c7Task : TaskVal :=
  { id := "t9", contextId := some "ctx-1", status := { state := .completed } }

/-- C7 witness: the dispatch theorem at a concrete registry, worker, task
and fresh context: the `completed` state clears the busy flag, both ids are
persisted, and the call returns outputs instead of raising. -/
theorem claim_C7_witness :
    (hostSendMessage ["workerA"] "workerA" (.task (some c7Task)) {}).1.state.session_active = false ∧
      (hostSendMessage ["workerA"] "workerA" (.task (some c7Task)) {}).1.state.task_id = some "t9" ∧
      (hostSendMessage ["workerA"] "workerA" (.task (some c7Task)) {}).1.state.context_id = some "ctx-1" ∧
      ∃ vals, (hostSendMessage ["workerA"] "workerA" (.task (some c7Task)) {}).2 = .ok vals := by
  obtain ⟨h1, h2, h3, _h4, _h5, h6⟩ :=
    claim_C7 ["workerA"] "workerA" c7Task {} (by decide)
      (by intro m hm; cases hm) (by intro arts ha; cases ha)
  refine ⟨?_, h2, h3 "ctx-1" rfl (by decide), h6 (by decide) (by decide)⟩
  rw [h1]
  decide

/-! ## start.py: shutdown escalation (`graceful_terminate`, lines 229-306)

Timed model of the non-Windows path. Signal delivery is instantaneous; a
process that responds to a signal exits immediately; `asyncio.wait(tasks,
timeout=w)` returns as soon as every process has exited, and after `w`
seconds otherwise. The INT wait uses the literal `timeout=8` (line 274) and
the TERM wait the literal `timeout=6` (line 291) — `graceful_terminate`
takes no grace-period parameters at all. A round is recorded as
`(time, signal, recipients)`; within a round the code signals processes in
reverse start order, which the model does not resolve below round
granularity (no claim depends on intra-round order). -/

/-- The three escalation signals. -/
inductive Sig
  | int
  | term
  | kill
  deriving DecidableEq, Repr, Inhabited

/-- What a child process does with catchable signals (SIGKILL always
works). -/
structure ProcBehavior where
  exitsOnInt : Bool
  exitsOnTerm : Bool
  deriving DecidableEq, Repr, Inhabited

/-- graceful_terminate (lines 229-306): `force_now` skips straight to KILL;
otherwise INT to every process at time 0, wait (up to the hardcoded 8 s),
TERM to the survivors, wait (up to the hardcoded 6 s), KILL to any process
still alive. -/
def graceful_terminate (procs : List ProcBehavior) (force_now : Bool) :
    List (ℚ × Sig × List ProcBehavior) :=
  if force_now then [(0, .kill, procs)]
  else
    let s1 := procs.filter (fun p => !p.exitsOnInt)
    let t1 : ℚ := if s1.isEmpty then 0 else 8
    let s2 := s1.filter (fun p => !p.exitsOnTerm)
    let t2 : ℚ := t1 + (if s2.isEmpty then 0 else 6)
    [(0, .int, procs), (t1, .term, s1), (t2, .kill, s2)]

/-- The shutdown call as `main` performs it (lines 560-561, 645-651):
`--grace-int` and `--grace-term` are parsed into `args` but never read
again — `graceful_terminate` is called without them, so the model accepts
and ignores them exactly as the program does. -/
def shutdownWithArgs (_graceInt _graceTerm : ℚ) (procs : List ProcBehavior)
    (force_now : Bool) : List (ℚ × Sig × List ProcBehavior) :=
  graceful_terminate procs force_now

/-- A process that ignores SIGINT and SIGTERM. -/
def stubborn : ProcBehavior := { exitsOnInt := false, exitsOnTerm := false }

/-- C9 at its failing input. For a process that ignores interrupt and
terminate, the escalation does send INT at 0, TERM at 8 and KILL at 14 — the
kill comes only after both grace windows, and the double-stop/force path
skips straight to kill. But the windows are the HARDCODED 8 and 6 seconds
(start.py lines 274 and 291): running with `--grace-int 1 --grace-term 1`
produces exactly the same schedule, so the kill arrives at 14 s, far outside
`grace_int + grace_term + epsilon = 1 + 1 + 1`, contradicting the flags' own
help text ("Seconds to wait after INT before TERM" / "after TERM before
KILL") — the parsed values are dead. -/
theorem claim_C9 :
    shutdownWithArgs 1 1 [stubborn] false =
        [(0, .int, [stubborn]), (8, .term, [stubborn]), (14, .kill, [stubborn])] ∧
      (∀ gi gt : ℚ, shutdownWithArgs gi gt [stubborn] false =
        graceful_terminate [stubborn] false) ∧
      shutdownWithArgs 1 1 [stubborn] true = [(0, .kill, [stubborn])] ∧
      ¬ ((14 : ℚ) ≤ 1 + 1 + 1) := by
  refine ⟨?_, fun gi gt => rfl, rfl, by norm_num⟩
  show graceful_terminate [stubborn] false = _
  unfold graceful_terminate stubborn
  norm_num [List.filter]

end AgentBridge
